import Mathlib

/-!
# Verification of the migen tutorial circuits

A shallow embedding of the two teaching circuits of this repository:

* `tutorial_1.py` — `BlinkerModule`: a 3-bit free-running counter with a
  combinational flag (`blinker`) and a registered flag (`blinker_sync`).
* `tutorial_2.py` — `DemoPIDChain`: an opaque PID transform gated by an
  enable register, with fixed-point rescaling at the boundary.

Signals are modelled as integers masked to their width on every assignment
(unsigned signals wrap modulo `2 ^ width`, signed signals wrap
twos-complement), synchronous (`self.sync`) statements as a step function
sampling the previous cycle, and combinational (`self.comb`) statements as
pure functions of the current state.  Parts of the model that correspond to
the underlying simulation framework rather than to the files under `src/`
(the signal store and the combinational settle loop) are marked as modelled
from the specification.
-/

/-- Twos-complement wraparound of an integer into the signed range of a
`w`-bit signal, the masking the hardware framework applies on every
assignment to a signal declared `Signal((w, True))`. -/
def wrapSigned (w : Nat) (n : Int) : Int :=
  (n + 2 ^ (w - 1)) % 2 ^ w - 2 ^ (w - 1)

/-- Unsigned wraparound of an integer into the range of a `w`-bit signal,
the masking applied on every assignment to a signal declared `Signal(w)`. -/
def wrapUnsigned (w : Nat) (n : Int) : Int :=
  n % 2 ^ w

/-- Arithmetic right shift by `k` bits: floor division by `2 ^ k`.  This is
the meaning of `>>` on a signed migen signal, used by the rescale-down at
the gated chain boundary (`pid_output >> bit_shift`, tutorial_2 line 58). -/
def arithShiftRight (n : Int) (k : Nat) : Int :=
  n / 2 ^ k

/-- The registered state of `BlinkerModule` (tutorial_1 lines 56-113): the
3-bit counter (`Signal(bits_for(7))`) and the registered flag
`blinker_sync` (`Signal()`).  The combinational `blinker` is a function of
this state, not part of it. -/
structure BlinkerState where
  counter : Nat
  blinker_sync : Nat
deriving DecidableEq, Repr

/-- The combinational binding
`self.comb += [self.blinker.eq(self.counter >= 4)]` (tutorial_1 line 106):
within the same cycle, `blinker` is 1 exactly when the counter is at least
4. -/
def blinker (s : BlinkerState) : Nat :=
  if 4 ≤ s.counter then 1 else 0

/-- One FPGA cycle of `BlinkerModule`: the two sync statements
`self.counter.eq(self.counter + 1)` (lines 82-95, wrapping at the 3-bit
width) and `self.blinker_sync.eq(self.counter >= 4)` (line 113), both
sampling the previous cycle. -/
def blinkerStep (s : BlinkerState) : BlinkerState :=
  { counter := (s.counter + 1) % 2 ^ 3
    blinker_sync := if 4 ≤ s.counter then 1 else 0 }

/-- Reset state of `BlinkerModule`: all signals start at 0. -/
def blinkerInit : BlinkerState :=
  { counter := 0, blinker_sync := 0 }

/-- The state of `BlinkerModule` after `t` simulated FPGA cycles. -/
def blinkerRun : Nat → BlinkerState
  | 0 => blinkerInit
  | t + 1 => blinkerStep (blinkerRun t)

lemma blinkerRun_counter (t : Nat) : (blinkerRun t).counter = t % 8 := by
  induction t with
  | zero => rfl
  | succ t ih =>
      show ((blinkerRun t).counter + 1) % 2 ^ 3 = (t + 1) % 8
      rw [ih]
      omega

lemma blinkerRun_blinker_sync (t : Nat) :
    (blinkerRun (t + 1)).blinker_sync = blinker (blinkerRun t) := rfl

/-- C1: starting from 0 the counter returns to 0 after exactly 8 steps; at
every step the combinational `blinker` is 1 exactly when the counter is in
`{4, 5, 6, 7}` (same-cycle visibility); the registered `blinker_sync` at
step `t + 1` equals the combinational flag at step `t` (one-cycle delay);
in particular at step 4 `blinker` is already 1 while `blinker_sync` is
still 0, and at step 5 `blinker_sync` becomes 1. -/
theorem blinker_counter_scenario :
    (blinkerRun 8).counter = 0 ∧
    (∀ t, 0 < t → t < 8 → (blinkerRun t).counter ≠ 0) ∧
    (∀ t, blinker (blinkerRun t) = 1 ↔
      (blinkerRun t).counter ∈ ([4, 5, 6, 7] : List Nat)) ∧
    (∀ t, (blinkerRun (t + 1)).blinker_sync = blinker (blinkerRun t)) ∧
    blinker (blinkerRun 4) = 1 ∧ (blinkerRun 4).blinker_sync = 0 ∧
    (blinkerRun 5).blinker_sync = 1 := by
  refine ⟨by decide, ?_, ?_, blinkerRun_blinker_sync, by decide, by decide, by decide⟩
  · intro t ht0 ht8
    rw [blinkerRun_counter]
    omega
  · intro t
    have hc : (blinkerRun t).counter = t % 8 := blinkerRun_counter t
    unfold blinker
    rw [hc]
    by_cases h4 : 4 ≤ t % 8
    · rw [if_pos h4]
      simp only [List.mem_cons, List.mem_singleton, List.not_mem_nil, or_false]
      constructor
      · intro _
        omega
      · intro _
        trivial
    · rw [if_neg h4]
      simp only [List.mem_cons, List.mem_singleton, List.not_mem_nil, or_false]
      constructor
      · intro h
        exact absurd h (by decide)
      · intro h
        omega

/-- Concrete check of the counter scenario: the counter has not yet wrapped
at step 3. -/
theorem blinker_counter_scenario_check : (blinkerRun 3).counter ≠ 0 :=
  blinker_counter_scenario.2.1 3 (by decide) (by decide)

lemma wrapSigned_bounds (w : Nat) (n : Int) (hw : 1 ≤ w) :
    -2 ^ (w - 1) ≤ wrapSigned w n ∧ wrapSigned w n < 2 ^ (w - 1) := by
  unfold wrapSigned
  have hsplit : (2 : Int) ^ w = 2 ^ (w - 1) * 2 := by
    rw [← pow_succ]
    congr 1
    omega
  have h0 : 0 ≤ (n + 2 ^ (w - 1)) % 2 ^ w :=
    Int.emod_nonneg _ (by positivity)
  have h1 : (n + 2 ^ (w - 1)) % 2 ^ w < 2 ^ w :=
    Int.emod_lt_of_pos _ (by positivity)
  constructor
  · linarith
  · linarith

lemma wrapSigned_eq_self (w : Nat) (n : Int) (hw : 1 ≤ w)
    (hlo : -2 ^ (w - 1) ≤ n) (hhi : n < 2 ^ (w - 1)) : wrapSigned w n = n := by
  unfold wrapSigned
  have hsplit : (2 : Int) ^ w = 2 ^ (w - 1) * 2 := by
    rw [← pow_succ]
    congr 1
    omega
  rw [Int.emod_eq_of_lt (by linarith) (by linarith)]
  ring

lemma wrapSigned_emod (w : Nat) (n : Int) :
    wrapSigned w n % 2 ^ w = n % 2 ^ w := by
  have h : wrapSigned w n = n + 2 ^ w * -((n + 2 ^ (w - 1)) / 2 ^ w) := by
    unfold wrapSigned
    rw [Int.emod_def]
    ring
  rw [h, Int.add_mul_emod_self_left]

/-- Modelled from the spec: the Signal/Register Store of section 4.1
(`create` / `read` / `write` with width and sign masking on every write) is
supplied by the external hardware framework and is not among the files
under `src/`; it is rendered here as a record holding one signal together
with its masking discipline. -/
structure StoreSignal where
  width : Nat
  signed : Bool
  value : Int
deriving DecidableEq, Repr

/-- Modelled from the spec: `write` stores a value into the signal, masking
it to the signal width — unsigned signals wrap modulo `2 ^ width`, signed
signals wrap twos-complement. -/
def StoreSignal.write (sig : StoreSignal) (n : Int) : StoreSignal :=
  { sig with
    value := if sig.signed then wrapSigned sig.width n else wrapUnsigned sig.width n }

/-- Modelled from the spec: `read` returns the currently stored value. -/
def StoreSignal.read (sig : StoreSignal) : Int :=
  sig.value

/-- C3: for an unsigned signal of width `w`, `read` after `write n` returns
`n mod 2 ^ w`; the stored value hence fits the width after any assignment
(`0 ≤ value < 2 ^ w`, overflow wrapping modulo `2 ^ width`); and the 3-bit
counter of `BlinkerModule` indeed stays below `2 ^ 3` at every cycle. -/
theorem unsigned_write_read_mod (sig : StoreSignal) (w : Nat) (n : Int)
    (hsig : sig.signed = false) (hw : sig.width = w) :
    (sig.write n).read = n % 2 ^ w ∧
    0 ≤ (sig.write n).read ∧ (sig.write n).read < 2 ^ w ∧
    ∀ t, (blinkerRun t).counter < 2 ^ 3 := by
  have hr : (sig.write n).read = n % 2 ^ w := by
    simp [StoreSignal.write, StoreSignal.read, hsig, hw, wrapUnsigned]
  refine ⟨hr, ?_, ?_, ?_⟩
  · rw [hr]
    exact Int.emod_nonneg _ (by positivity)
  · rw [hr]
    exact Int.emod_lt_of_pos _ (by positivity)
  · intro t
    rw [blinkerRun_counter]
    omega

/-- Concrete check of the unsigned store contract: writing `-1` to a 3-bit
unsigned signal stores `7`. -/
theorem unsigned_write_read_mod_check :
    (StoreSignal.write ⟨3, false, 0⟩ (-1)).read = (-1 : Int) % 2 ^ 3 :=
  (unsigned_write_read_mod ⟨3, false, 0⟩ 3 (-1) rfl rfl).1

/-- C4: a signed signal of width `w` holds a value in
`[-2 ^ (w - 1), 2 ^ (w - 1) - 1]` after every write; the wraparound is
twos-complement: the stored value is congruent to the written value modulo
`2 ^ w`, and a value already in range is stored unchanged. -/
theorem signed_signal_range (sig : StoreSignal) (w : Nat) (n : Int)
    (hsig : sig.signed = true) (hw : sig.width = w) (h1 : 1 ≤ w) :
    -2 ^ (w - 1) ≤ (sig.write n).read ∧
    (sig.write n).read ≤ 2 ^ (w - 1) - 1 ∧
    (sig.write n).read % 2 ^ w = n % 2 ^ w ∧
    (-2 ^ (w - 1) ≤ n → n < 2 ^ (w - 1) → (sig.write n).read = n) := by
  have hr : (sig.write n).read = wrapSigned w n := by
    simp [StoreSignal.write, StoreSignal.read, hsig, hw]
  obtain ⟨hlo, hhi⟩ := wrapSigned_bounds w n h1
  refine ⟨?_, ?_, ?_, ?_⟩
  · rw [hr]
    exact hlo
  · rw [hr]
    omega
  · rw [hr]
    exact wrapSigned_emod w n
  · intro ha hb
    rw [hr]
    exact wrapSigned_eq_self w n h1 ha hb

/-- Concrete check of the signed store invariant: writing `2 ^ 24` (one past
the maximum) to a 25-bit signed signal wraps to the minimum `-2 ^ 24`. -/
theorem signed_signal_range_check :
    (StoreSignal.write ⟨25, true, 0⟩ (2 ^ 24)).read % 2 ^ 25 = (2 ^ 24 : Int) % 2 ^ 25 :=
  (signed_signal_range ⟨25, true, 0⟩ 25 (2 ^ 24) rfl rfl (by decide)).2.2.1

/-- The gated output of `DemoPIDChain.__init__` (tutorial_2 lines 41-60).
The `pid` submodule is an opaque transform: its output port `pid_out` is
`out st` applied to the value on its `input` port.  `input_shifted`
receives the chain input left-shifted by `bit_shift = signal_width - width`
(line 43), `pid_output` receives `pid.pid_out` (line 53), and the final
comb block drives `output` with `pid_output >> bit_shift` when
`pid_enable.storage` is set and with `input` otherwise (lines 57-60).
Every assignment is masked to the width of its signed target signal. -/
def chainOutput {σ : Type} (out : σ → Int → Int) (st : σ)
    (width signal_width : Nat) (inp : Int) (pid_enable : Bool) : Int :=
  let bit_shift := signal_width - width
  let input_shifted := wrapSigned signal_width (inp * 2 ^ bit_shift)
  let pid_output := wrapSigned signal_width (out st input_shifted)
  if pid_enable then wrapSigned width (arithShiftRight pid_output bit_shift)
  else wrapSigned width inp

/-- The gated-chain contract in the words of the specification (section
4.3): `output = enable ? rescale_down(transform(rescale_up(input))) :
input`, with `rescale_up` a left shift by `extra_bits`, `rescale_down` an
arithmetic right shift by `extra_bits`, and no masking. -/
def specGatedOutput {σ : Type} (transform : σ → Int → Int) (st : σ)
    (extra_bits : Nat) (inp : Int) (enable : Bool) : Int :=
  if enable then arithShiftRight (transform st (inp * 2 ^ extra_bits)) extra_bits
  else inp

lemma shifted_input_bounds (w sw : Nat) (inp : Int) (hw : 1 ≤ w) (hws : w ≤ sw)
    (hlo : -2 ^ (w - 1) ≤ inp) (hhi : inp < 2 ^ (w - 1)) :
    -2 ^ (sw - 1) ≤ inp * 2 ^ (sw - w) ∧ inp * 2 ^ (sw - w) < 2 ^ (sw - 1) := by
  have hkey : (2 : Int) ^ (w - 1) * 2 ^ (sw - w) = 2 ^ (sw - 1) := by
    rw [← pow_add]
    congr 1
    omega
  constructor
  · have h := mul_le_mul_of_nonneg_right hlo
      (le_of_lt (pow_pos (by norm_num) (sw - w) : (0 : Int) < 2 ^ (sw - w)))
    calc -2 ^ (sw - 1) = -2 ^ (w - 1) * 2 ^ (sw - w) := by rw [← hkey]; ring
    _ ≤ inp * 2 ^ (sw - w) := h
  · calc inp * 2 ^ (sw - w) < 2 ^ (w - 1) * 2 ^ (sw - w) :=
      mul_lt_mul_of_pos_right hhi (pow_pos (by norm_num) _)
    _ = 2 ^ (sw - 1) := hkey

lemma shift_down_bounds (w sw : Nat) (t : Int) (hw : 1 ≤ w) (hws : w ≤ sw)
    (hlo : -2 ^ (sw - 1) ≤ t) (hhi : t < 2 ^ (sw - 1)) :
    -2 ^ (w - 1) ≤ arithShiftRight t (sw - w) ∧
    arithShiftRight t (sw - w) < 2 ^ (w - 1) := by
  have hkey : (2 : Int) ^ (w - 1) * 2 ^ (sw - w) = 2 ^ (sw - 1) := by
    rw [← pow_add]
    congr 1
    omega
  have hpos : (0 : Int) < 2 ^ (sw - w) := pow_pos (by norm_num) _
  unfold arithShiftRight
  constructor
  · rw [Int.le_ediv_iff_mul_le hpos]
    calc -2 ^ (w - 1) * 2 ^ (sw - w) = -2 ^ (sw - 1) := by rw [← hkey]; ring
    _ ≤ t := hlo
  · rw [Int.ediv_lt_iff_lt_mul hpos]
    calc t < 2 ^ (sw - 1) := hhi
    _ = 2 ^ (w - 1) * 2 ^ (sw - w) := hkey.symm

lemma chainOutput_enabled {σ : Type} (out : σ → Int → Int) (st : σ)
    (w sw : Nat) (inp : Int) (hw : 1 ≤ w) (hws : w ≤ sw)
    (hlo : -2 ^ (w - 1) ≤ inp) (hhi : inp < 2 ^ (w - 1))
    (hol : -2 ^ (sw - 1) ≤ out st (inp * 2 ^ (sw - w)))
    (hoh : out st (inp * 2 ^ (sw - w)) < 2 ^ (sw - 1)) :
    chainOutput out st w sw inp true =
      arithShiftRight (out st (inp * 2 ^ (sw - w))) (sw - w) := by
  have hsw : 1 ≤ sw := le_trans hw hws
  obtain ⟨hsl, hsh⟩ := shifted_input_bounds w sw inp hw hws hlo hhi
  obtain ⟨hdl, hdh⟩ := shift_down_bounds w sw (out st (inp * 2 ^ (sw - w))) hw hws hol hoh
  show wrapSigned w (arithShiftRight
      (wrapSigned sw (out st (wrapSigned sw (inp * 2 ^ (sw - w))))) (sw - w)) = _
  rw [wrapSigned_eq_self sw _ hsw hsl hsh, wrapSigned_eq_self sw _ hsw hol hoh,
    wrapSigned_eq_self w _ hw hdl hdh]

/-- C2: the gated chain satisfies the contract
`output = enable ? rescale_down(transform(rescale_up(input))) : input` —
for a disabled chain the output equals the input whatever the internal
state of the transform, and for an enabled chain the output is the input
shifted up by `extra_bits`, transformed, and shifted back down; the
hypotheses say the input fits its 14-bit-style external width and the
opaque transform produces a value fitting the internal width, as its output
signal declaration guarantees. -/
theorem gated_chain_contract {σ : Type} (out : σ → Int → Int) (st : σ)
    (width signal_width : Nat) (inp : Int)
    (hw : 1 ≤ width) (hws : width ≤ signal_width)
    (hlo : -2 ^ (width - 1) ≤ inp) (hhi : inp < 2 ^ (width - 1))
    (hol : -2 ^ (signal_width - 1) ≤ out st (inp * 2 ^ (signal_width - width)))
    (hoh : out st (inp * 2 ^ (signal_width - width)) < 2 ^ (signal_width - 1)) :
    ∀ enable, chainOutput out st width signal_width inp enable =
      specGatedOutput out st (signal_width - width) inp enable := by
  intro enable
  cases enable
  · show wrapSigned width inp = inp
    exact wrapSigned_eq_self width inp hw hlo hhi
  · show chainOutput out st width signal_width inp true = _
    rw [chainOutput_enabled out st width signal_width inp hw hws hlo hhi hol hoh]
    rfl

/-- Concrete check of the gated-chain contract with the identity transform
at the default widths 14 and 25 and a negative input. -/
theorem gated_chain_contract_check :
    chainOutput (fun (_ : Unit) x => x) () 14 25 (-3) true =
      specGatedOutput (fun (_ : Unit) x => x) () (25 - 14) (-3) true :=
  gated_chain_contract (fun (_ : Unit) x => x) () 14 25 (-3) (by decide) (by decide)
    (by decide) (by decide) (by decide) (by decide) true

/-- C5: the rescale-down shift `pid_output >> bit_shift` at the gated chain
boundary (tutorial_2 line 58) is an arithmetic right shift: every negative
value is still negative after the shift (the sign is preserved, unlike a
logical shift, which would zero-fill the high bits and produce a
non-negative result). -/
theorem rescale_down_preserves_sign (n : Int) (k : Nat) (hn : n < 0) :
    arithShiftRight n k < 0 := by
  unfold arithShiftRight
  exact Int.ediv_neg' hn (pow_pos (by norm_num) k)

/-- Concrete check of sign preservation: shifting `-1` down by the default
`bit_shift = 11` yields a negative value. -/
theorem rescale_down_preserves_sign_check : arithShiftRight (-1) 11 < 0 :=
  rescale_down_preserves_sign (-1) 11 (by decide)

/-- C6: with the chain enabled, the output measured back at the internal
scale (multiplied by `2 ^ extra_bits`) falls short of the full-precision
transform result by at least 0 and at most `2 ^ extra_bits - 1` — the
truncation error of the rescale-down boundary per step, with
`extra_bits = signal_width - width`. -/
theorem gated_chain_rounding_error {σ : Type} (out : σ → Int → Int) (st : σ)
    (width signal_width : Nat) (inp : Int)
    (hw : 1 ≤ width) (hws : width ≤ signal_width)
    (hlo : -2 ^ (width - 1) ≤ inp) (hhi : inp < 2 ^ (width - 1))
    (hol : -2 ^ (signal_width - 1) ≤ out st (inp * 2 ^ (signal_width - width)))
    (hoh : out st (inp * 2 ^ (signal_width - width)) < 2 ^ (signal_width - 1)) :
    0 ≤ out st (inp * 2 ^ (signal_width - width)) -
        2 ^ (signal_width - width) * chainOutput out st width signal_width inp true ∧
    out st (inp * 2 ^ (signal_width - width)) -
        2 ^ (signal_width - width) * chainOutput out st width signal_width inp true ≤
      2 ^ (signal_width - width) - 1 := by
  rw [chainOutput_enabled out st width signal_width inp hw hws hlo hhi hol hoh]
  unfold arithShiftRight
  set t := out st (inp * 2 ^ (signal_width - width)) with ht
  have hpos : (0 : Int) < 2 ^ (signal_width - width) := pow_pos (by norm_num) _
  have hkey : t - 2 ^ (signal_width - width) * (t / 2 ^ (signal_width - width)) =
      t % 2 ^ (signal_width - width) := by
    rw [Int.emod_def]
  rw [hkey]
  have h0 : 0 ≤ t % 2 ^ (signal_width - width) := Int.emod_nonneg _ (ne_of_gt hpos)
  have h1 : t % 2 ^ (signal_width - width) < 2 ^ (signal_width - width) :=
    Int.emod_lt_of_pos _ hpos
  exact ⟨h0, by omega⟩

/-- Concrete check of the rounding bound with the identity transform at the
default widths: input `-3` gives an internal-scale error of 0. -/
theorem gated_chain_rounding_error_check :
    0 ≤ (fun (_ : Unit) x => x) () ((-3 : Int) * 2 ^ (25 - 14)) -
        2 ^ (25 - 14) * chainOutput (fun (_ : Unit) x => x) () 14 25 (-3) true :=
  (gated_chain_rounding_error (fun (_ : Unit) x => x) () 14 25 (-3) (by decide)
    (by decide) (by decide) (by decide) (by decide) (by decide)).1

/-- The comb connection `pid.running.eq(1)` (tutorial_2 line 51): the PID
run input is tied to the constant 1. -/
def pidRunningWire : Int := 1

/-- The comb connections of tutorial_2 lines 43 and 49: the PID input port
receives `input_shifted`, the chain input left-shifted by `bit_shift` and
masked to the internal signal width. -/
def pidInputWire (width signal_width : Nat) (inp : Int) : Int :=
  wrapSigned signal_width (inp * 2 ^ (signal_width - width))

/-- The trajectory of the opaque PID submodule state when the chain is
simulated against an input stream `inputs` and a CSR enable stream
`enables`: each cycle the next PID state is computed from the values on its
`input` and `running` ports as wired by the comb blocks of tutorial_2 lines
43-54 — bindings in which `pid_enable` never occurs. -/
def chainPidRun {σ : Type} (next : σ → Int → Int → σ) (init : σ)
    (width signal_width : Nat) (inputs : Nat → Int) (enables : Nat → Bool) :
    Nat → σ
  | 0 => init
  | t + 1 => next (chainPidRun next init width signal_width inputs enables t)
      (pidInputWire width signal_width (inputs t)) pidRunningWire

/-- C10: the PID submodule is always driven — its state trajectory is the
same for any two enable streams, its `running` port is the constant 1, each
cycle its next state is fed the live rescaled input, and meanwhile a
disabled chain bypasses its output to the raw input. -/
theorem pid_always_driven {σ : Type} (next : σ → Int → Int → σ) (init : σ)
    (width signal_width : Nat) (inputs : Nat → Int) :
    (∀ enables enables₂ t,
        chainPidRun next init width signal_width inputs enables t =
        chainPidRun next init width signal_width inputs enables₂ t) ∧
    pidRunningWire = 1 ∧
    (∀ enables t,
        chainPidRun next init width signal_width inputs enables (t + 1) =
        next (chainPidRun next init width signal_width inputs enables t)
          (pidInputWire width signal_width (inputs t)) 1) ∧
    (∀ (out : σ → Int → Int) (st : σ) (inp : Int),
        1 ≤ width → -2 ^ (width - 1) ≤ inp → inp < 2 ^ (width - 1) →
        chainOutput out st width signal_width inp false = inp) := by
  refine ⟨?_, rfl, ?_, ?_⟩
  · intro e₁ e₂ t
    induction t with
    | zero => rfl
    | succ t ih => simp only [chainPidRun, ih]
  · intro e t
    rfl
  · intro out st inp h1 h2 h3
    show wrapSigned width inp = inp
    exact wrapSigned_eq_self width inp h1 h2 h3

/-- Concrete check that the PID state after three cycles of an accumulating
transform is independent of the enable stream. -/
theorem pid_always_driven_check :
    chainPidRun (fun (s : Int) i r => s + i + r) 0 14 25 (fun _ => 1) (fun _ => false) 3 =
    chainPidRun (fun (s : Int) i r => s + i + r) 0 14 25 (fun _ => 1) (fun _ => true) 3 :=
  (pid_always_driven (fun (s : Int) i r => s + i + r) 0 14 25 (fun _ => 1)).1
    (fun _ => false) (fun _ => true) 3

/-- A store of named signals, as the simulation holds them between cycles. -/
abbrev SigStore := String → Int

/-- A registered binding `target.eq(rhs)` inside a `self.sync` block: the
right-hand side is a function of the snapshot taken before the commit. -/
structure RegBinding where
  target : String
  rhs : SigStore → Int

/-- Phase-2 commit of two registered bindings in a given order: both
right-hand sides are evaluated on the snapshot `s` sampled before the
commit, then written to their targets one after the other. -/
def commitPair (b₁ b₂ : RegBinding) (s : SigStore) : SigStore :=
  Function.update (Function.update s b₁.target (b₁.rhs s)) b₂.target (b₂.rhs s)

/-- The sync binding `self.counter.eq(self.counter + 1)` (tutorial_1 lines
82-95) on the named store, masked to the 3-bit counter width. -/
def counterBinding : RegBinding :=
  { target := "counter", rhs := fun s => wrapUnsigned 3 (s "counter" + 1) }

/-- The sync binding `self.blinker_sync.eq(self.counter >= 4)` (tutorial_1
line 113) on the named store: it reads the counter the increment writes. -/
def blinkerSyncBinding : RegBinding :=
  { target := "blinker_sync", rhs := fun s => if 4 ≤ s "counter" then 1 else 0 }

/-- C7: committing two registered bindings with distinct targets in either
order yields the same final store — each right-hand side sees only the
pre-commit snapshot, so no registered update observes another registered
update from the same step; in particular the counter increment and the
`blinker_sync` assignment of `BlinkerModule` commute. -/
theorem registered_commit_comm :
    (∀ b₁ b₂ : RegBinding, b₁.target ≠ b₂.target →
        ∀ s, commitPair b₁ b₂ s = commitPair b₂ b₁ s) ∧
    (∀ s, commitPair counterBinding blinkerSyncBinding s =
        commitPair blinkerSyncBinding counterBinding s) := by
  have hgen : ∀ b₁ b₂ : RegBinding, b₁.target ≠ b₂.target →
      ∀ s, commitPair b₁ b₂ s = commitPair b₂ b₁ s := by
    intro b₁ b₂ hne s
    unfold commitPair
    exact Function.update_comm hne _ _ _
  exact ⟨hgen, hgen counterBinding blinkerSyncBinding (by decide)⟩

/-- Concrete check that the two registered bindings of `BlinkerModule`
commute on the all-zero store. -/
theorem registered_commit_comm_check :
    commitPair counterBinding blinkerSyncBinding (fun _ => 0) =
    commitPair blinkerSyncBinding counterBinding (fun _ => 0) :=
  registered_commit_comm.2 (fun _ => 0)

/-- Modelled from the spec: a combinational binding (section 3) — a target
signal index together with a right-hand side evaluated on the current
store.  The Phase-1 evaluator that runs these belongs to the external
simulation framework and is not among the files under `src/`. -/
structure CombBinding (n : Nat) where
  target : Fin n
  rhs : (Fin n → Int) → Int

/-- Modelled from the spec: one settle pass re-evaluates every
combinational binding simultaneously on the current store; a signal with no
binding keeps its value, and of several bindings on one target the first in
the list applies. -/
def combPass {n : Nat} (bs : List (CombBinding n)) (s : Fin n → Int) :
    Fin n → Int :=
  fun i =>
    match bs.find? (fun b => b.target == i) with
    | some b => b.rhs s
    | none => s i

/-- Modelled from the spec: the outcome of Phase-1 settling — either a
settled store or the `CombinationalLoopError` of section 7. -/
inductive SettleResult (n : Nat) where
  | ok (s : Fin n → Int)
  | combinationalLoopError

/-- Whether Phase-1 settling succeeded. -/
def SettleResult.isOk {n : Nat} : SettleResult n → Bool
  | .ok _ => true
  | .combinationalLoopError => false

/-- Modelled from the spec: the Phase-1 settle loop (section 4.2) —
re-evaluate all combinational bindings until no value changes, or fail with
`CombinationalLoopError` once the iteration budget is exhausted. -/
def settle {n : Nat} (bs : List (CombBinding n)) :
    Nat → (Fin n → Int) → SettleResult n
  | 0, _ => .combinationalLoopError
  | fuel + 1, s =>
      if combPass bs s = s then .ok s else settle bs fuel (combPass bs s)

lemma combPass_unbound {n : Nat} (bs : List (CombBinding n)) (i : Fin n)
    (h : bs.find? (fun b => b.target == i) = none) (s : Fin n → Int) :
    combPass bs s i = s i := by
  simp [combPass, h]

lemma combPass_bound {n : Nat} (bs : List (CombBinding n)) (i : Fin n)
    (b : CombBinding n) (h : bs.find? (fun b => b.target == i) = some b)
    (s : Fin n → Int) : combPass bs s i = b.rhs s := by
  simp [combPass, h]

lemma iter_unbound {n : Nat} (bs : List (CombBinding n)) (i : Fin n)
    (h : bs.find? (fun b => b.target == i) = none) (s : Fin n → Int) :
    ∀ k, (combPass bs)^[k] s i = s i := by
  intro k
  induction k with
  | zero => rfl
  | succ k ih =>
      rw [Function.iterate_succ_apply', combPass_unbound bs i h]
      exact ih

lemma settle_stabilizes {n : Nat} (bs : List (CombBinding n)) (r : Fin n → Nat)
    (hsupp : ∀ i b, bs.find? (fun b => b.target == i) = some b →
        1 ≤ r i ∧ ∀ s₁ s₂ : Fin n → Int,
          (∀ j, r j < r i → s₁ j = s₂ j) → b.rhs s₁ = b.rhs s₂)
    (s : Fin n → Int) :
    ∀ k i, r i ≤ k → ∀ m, (combPass bs)^[k + m] s i = (combPass bs)^[k] s i := by
  intro k
  induction k using Nat.strong_induction_on with
  | _ k IH =>
    intro i hik m
    cases hfind : bs.find? (fun b => b.target == i) with
    | none => rw [iter_unbound bs i hfind s, iter_unbound bs i hfind s]
    | some b =>
        obtain ⟨hr1, hsens⟩ := hsupp i b hfind
        obtain ⟨k', rfl⟩ : ∃ k', k = k' + 1 := ⟨k - 1, by omega⟩
        have h1 : (combPass bs)^[k' + 1 + m] s i =
            b.rhs ((combPass bs)^[k' + m] s) := by
          have he : k' + 1 + m = (k' + m) + 1 := by omega
          rw [he, Function.iterate_succ_apply', combPass_bound bs i b hfind]
        have h2 : (combPass bs)^[k' + 1] s i = b.rhs ((combPass bs)^[k'] s) := by
          rw [Function.iterate_succ_apply', combPass_bound bs i b hfind]
        rw [h1, h2]
        apply hsens
        intro j hj
        exact IH k' (by omega) j (by omega) m

lemma settle_fixpoint {n : Nat} (bs : List (CombBinding n)) (r : Fin n → Nat)
    (hsupp : ∀ i b, bs.find? (fun b => b.target == i) = some b →
        1 ≤ r i ∧ ∀ s₁ s₂ : Fin n → Int,
          (∀ j, r j < r i → s₁ j = s₂ j) → b.rhs s₁ = b.rhs s₂)
    (d : Nat) (hdepth : ∀ i, r i ≤ d) (s : Fin n → Int) :
    combPass bs ((combPass bs)^[d] s) = (combPass bs)^[d] s := by
  funext i
  calc combPass bs ((combPass bs)^[d] s) i = (combPass bs)^[d + 1] s i :=
    (congrFun (Function.iterate_succ_apply' (combPass bs) d s) i).symm
  _ = (combPass bs)^[d] s i := settle_stabilizes bs r hsupp s d i (hdepth i) 1

lemma settle_isOk_of_fixpoint {n : Nat} (bs : List (CombBinding n)) :
    ∀ (fuel : Nat) (s : Fin n → Int),
      (∃ j, j < fuel ∧ combPass bs ((combPass bs)^[j] s) = (combPass bs)^[j] s) →
      (settle bs fuel s).isOk = true := by
  intro fuel
  induction fuel with
  | zero =>
      rintro s ⟨j, hj, _⟩
      exact absurd hj (Nat.not_lt_zero j)
  | succ fuel ih =>
      rintro s ⟨j, hj, hfix⟩
      simp only [settle]
      by_cases h : combPass bs s = s
      · rw [if_pos h]
        rfl
      · rw [if_neg h]
        apply ih
        cases j with
        | zero => exact absurd hfix h
        | succ j =>
            refine ⟨j, by omega, ?_⟩
            rw [Function.iterate_succ_apply] at hfix
            exact hfix

lemma settle_error_of_divergent {n : Nat} (bs : List (CombBinding n)) :
    ∀ (fuel : Nat) (s : Fin n → Int),
      (∀ j, j < fuel → combPass bs ((combPass bs)^[j] s) ≠ (combPass bs)^[j] s) →
      settle bs fuel s = SettleResult.combinationalLoopError := by
  intro fuel
  induction fuel with
  | zero =>
      intro s _
      rfl
  | succ fuel ih =>
      intro s h
      have h0 : combPass bs s ≠ s := by
        have := h 0 (Nat.succ_pos fuel)
        simpa using this
      simp only [settle]
      rw [if_neg h0]
      apply ih
      intro j hj
      have hnext := h (j + 1) (by omega)
      rw [Function.iterate_succ_apply] at hnext
      exact hnext

/-- The comb binding of tutorial_1 line 106 on a two-signal store (index 0
the counter, index 1 the blinker): `self.blinker.eq(self.counter >= 4)`. -/
def blinkerCombBinding : CombBinding 2 :=
  { target := 1, rhs := fun s => if 4 ≤ s 0 then 1 else 0 }

/-- A genuinely cyclic combinational binding: a NOT gate feeding itself,
`x.eq(1 - x)`, whose settling oscillates and never converges. -/
def inverterBinding : CombBinding 1 :=
  { target := 0, rhs := fun s => 1 - s 0 }

/-- C8: Phase-1 settling.  If re-evaluating the combinational bindings
changes the store on every one of the allotted iterations (a genuine
combinational cycle, whose settling never converges), the settle loop
raises `CombinationalLoopError` once the budget is exhausted.  If the
binding graph is acyclic — witnessed by a rank function bounded by the
dependency depth `d`, under which every bound signal has positive rank and
every right-hand side depends only on signals of strictly lower rank — the
store stops changing within `d` passes and settling succeeds with a budget
of `d + 1`, raising no error. -/
theorem settle_convergence :
    (∀ (n : Nat) (bs : List (CombBinding n)) (fuel : Nat) (s : Fin n → Int),
        (∀ j, j < fuel → combPass bs ((combPass bs)^[j] s) ≠ (combPass bs)^[j] s) →
        settle bs fuel s = SettleResult.combinationalLoopError) ∧
    (∀ (n : Nat) (bs : List (CombBinding n)) (r : Fin n → Nat) (d : Nat)
        (s : Fin n → Int),
        (∀ i b, bs.find? (fun b => b.target == i) = some b →
            1 ≤ r i ∧ ∀ s₁ s₂ : Fin n → Int,
              (∀ j, r j < r i → s₁ j = s₂ j) → b.rhs s₁ = b.rhs s₂) →
        (∀ i, r i ≤ d) →
        combPass bs ((combPass bs)^[d] s) = (combPass bs)^[d] s ∧
        (settle bs (d + 1) s).isOk = true) := by
  constructor
  · intro n bs fuel s h
    exact settle_error_of_divergent bs fuel s h
  · intro n bs r d s hsupp hdepth
    have hfix := settle_fixpoint bs r hsupp d hdepth s
    exact ⟨hfix, settle_isOk_of_fixpoint bs (d + 1) s ⟨d, by omega, hfix⟩⟩

/-- Concrete check of the settle behaviour: the self-inverting binding
raises `CombinationalLoopError` with a budget of 4 iterations, while the
acyclic blinker binding (depth 1) settles successfully with a budget of
2. -/
theorem settle_convergence_check :
    settle [inverterBinding] 4 (fun _ => 0) = SettleResult.combinationalLoopError ∧
    (settle [blinkerCombBinding] 2 (fun _ => 0)).isOk = true :=
  ⟨settle_convergence.1 1 [inverterBinding] 4 (fun _ => 0) (by decide),
   (settle_convergence.2 2 [blinkerCombBinding] (fun i => if i = 0 then 0 else 1) 1
      (fun _ => 0)
      (by
        intro i b hb
        rw [List.find?_singleton] at hb
        fin_cases i
        · rw [if_neg (by decide)] at hb
          exact absurd hb (by simp)
        · rw [if_pos (by decide)] at hb
          have hb2 : blinkerCombBinding = b := Option.some.inj hb
          subst hb2
          refine ⟨by decide, ?_⟩
          intro s₁ s₂ hjs
          have h0 : s₁ 0 = s₂ 0 := hjs 0 (by decide)
          show (if 4 ≤ s₁ 0 then (1 : Int) else 0) = (if 4 ≤ s₂ 0 then 1 else 0)
          rw [h0])
      (by decide)).2⟩

/-- The module-level names bound in tutorial_2.py by its import statements
(lines 16-19): `from migen import Signal, Module`, `from
misoc.interconnect.csr import AutoCSR, CSRStatus, CSRStorage` and `from
logic.pid import PID`; the class statement later binds `DemoPIDChain`.
The name `If` is bound by none of them. -/
def tutorial2Globals : List String :=
  ["Signal", "Module", "AutoCSR", "CSRStatus", "CSRStorage", "PID", "DemoPIDChain"]

/-- The observable progress of `DemoPIDChain.__init__`: the combinational
bindings installed so far, in program order. -/
structure ChainInitState where
  combBindings : List String
deriving DecidableEq, Repr

/-- The outcome of running `DemoPIDChain.__init__`: a completed module, or
a Python `NameError` on an unresolvable name, leaving behind the bindings
installed before the failing statement. -/
inductive InitResult where
  | ok (final : ChainInitState)
  | nameError (missing : String) (installed : ChainInitState)
deriving DecidableEq, Repr

/-- Statement-by-statement execution of `DemoPIDChain.__init__` (tutorial_2
lines 28-60).  Each expression resolves the global names it mentions
against `tutorial2Globals` (locals such as `self`, `width`, `bit_shift`,
`input_shifted` and `pid_output` are always bound), and each
`self.comb +=` statement installs its bindings; as in Python, an
unresolved name raises `NameError` at the statement using it, aborting the
constructor with the earlier bindings already installed.  The `width` and
`signal_width` arguments take part in no name resolution, so the outcome
is the same for every choice of them. -/
def demoPIDChainInit (width signal_width : Nat) : InitResult :=
  -- line 30: self.input = Signal((width, True))
  if "Signal" ∉ tutorial2Globals then InitResult.nameError "Signal" ⟨[]⟩
  -- line 31: self.output = Signal((width, True))
  else if "Signal" ∉ tutorial2Globals then InitResult.nameError "Signal" ⟨[]⟩
  -- line 34: self.pid_enable = CSRStorage()
  else if "CSRStorage" ∉ tutorial2Globals then InitResult.nameError "CSRStorage" ⟨[]⟩
  -- line 37: self.submodules.pid = PID(width=signal_width)
  else if "PID" ∉ tutorial2Globals then InitResult.nameError "PID" ⟨[]⟩
  -- line 42: input_shifted = Signal((signal_width, True))
  else if "Signal" ∉ tutorial2Globals then InitResult.nameError "Signal" ⟨[]⟩
  else
    -- line 43: self.comb += [input_shifted.eq(self.input << bit_shift)]
    let s₁ : ChainInitState := ⟨["input_shifted"]⟩
    -- line 46: pid_output = Signal((signal_width, True))
    if "Signal" ∉ tutorial2Globals then InitResult.nameError "Signal" s₁
    else
      -- lines 47-54: self.comb += [self.pid.input.eq(input_shifted),
      --   self.pid.running.eq(1), pid_output.eq(self.pid.pid_out)]
      let s₂ : ChainInitState :=
        ⟨s₁.combBindings ++ ["pid.input", "pid.running", "pid_output"]⟩
      -- lines 57-60: self.comb += [If(self.pid_enable.storage,
      --   self.output.eq(pid_output >> bit_shift)).Else(self.output.eq(self.input))]
      if "If" ∉ tutorial2Globals then InitResult.nameError "If" s₂
      else InitResult.ok ⟨s₂.combBindings ++ ["output"]⟩

/-- C9 counterexample: at the default arguments the constructor does raise
`NameError` on `If`, but not before any signal binding is installed — four
combinational bindings (the `input_shifted` rescale and the three PID
connections) are already installed when it raises. -/
theorem demoPIDChainInit_bindings_installed_at_raise :
    demoPIDChainInit 14 25 = InitResult.nameError "If"
      ⟨["input_shifted", "pid.input", "pid.running", "pid_output"]⟩ ∧
    ["input_shifted", "pid.input", "pid.running", "pid_output"] ≠ ([] : List String) := by
  exact ⟨by decide, by decide⟩

/-- C9 (amended): constructing a `DemoPIDChain` always fails with a
`NameError` on the name `If`, which the gated-output combinational block
uses but no import or definition in the module binds; for every choice of
the `width` and `signal_width` arguments the constructor raises rather
than returning a module — though the combinational bindings preceding the
gated-output block are installed before the failure. -/
theorem demoPIDChainInit_raises_nameError (width signal_width : Nat) :
    demoPIDChainInit width signal_width = InitResult.nameError "If"
      ⟨["input_shifted", "pid.input", "pid.running", "pid_output"]⟩ ∧
    "If" ∉ tutorial2Globals := by
  exact ⟨rfl, by decide⟩

/-- Concrete check that the constructor raises at another argument pair. -/
theorem demoPIDChainInit_raises_nameError_check :
    demoPIDChainInit 16 32 = InitResult.nameError "If"
      ⟨["input_shifted", "pid.input", "pid.running", "pid_output"]⟩ :=
  (demoPIDChainInit_raises_nameError 16 32).1
